import Mathlib

/-!
Shallow embedding of the LMDB-style page codec of this repository:
`src/lmdb/database_lowlevel_write.rs` (the low-level write path),
`src/lmdb/model/mod.rs` and `src/main.rs`.  Pages are fixed 4096-byte
units; a byte is a `Nat` below 256 and a page image is a `List Nat`.
Machine integers (`u16`, `u32`, the word-size-dependent "word") are
modelled as `Nat` with explicit truncation where the code casts, and
`usize` subtraction is modelled as checked subtraction that fails on
underflow (a debug-build panic in Rust).

The read path (`read_leaf_unsafe`, `pick_meta_unsafe`), the writer
implementations (`Writer32`/`Writer64`), the model structs with the flag
bit constants (`model/header.rs`, `model/metadata.rs`, `model/lowlevel.rs`)
and `Factory::create` are not under `src/`; those definitions are
modelled from the spec and say so in their doc comments.
-/

set_option maxRecDepth 2000

namespace Lmdb

/-- A byte sequence; each entry is a byte (a `Nat` below 256). -/
abbrev Bytes := List Nat

/-- Little-endian encoding of `v` on `n` bytes.  Values wider than `n`
bytes are truncated, exactly as the Rust `as u16` / `as u32` casts do
before the fixed-width writer calls. -/
def leBytes : Nat → Nat → Bytes
  | 0, _ => []
  | n + 1, v => v % 256 :: leBytes n (v / 256)

/-- Failure modes of the modelled low-level write path. -/
inductive Err where
  /-- A `usize` subtraction went negative (a panic in a debug build). -/
  | underflow
  /-- `write_word` was given a value exceeding the declared word width. -/
  | wordRange
  /-- Format corruption (bad magic/version, wrong page kind, both meta
  candidates invalid). -/
  | corrupted
  deriving DecidableEq

/-- Modelled from the spec (§4.1): `write_word` encodes on the file's word
width (the `Writer32`/`Writer64` implementations are not under `src/`);
word-narrowing fails if the value exceeds the representable range. -/
def writeWord (w v : Nat) : Except Err Bytes :=
  if v < 2 ^ (8 * w) then .ok (leBytes w v) else .error .wordRange

/-- Modelled from the spec (§3): flag bit constants from `model/header.rs`
and `model/metadata.rs`, which are not under `src/`.  The spec names the
flags (BRANCH, LEAF, OVERFLOW, META; INTEGERKEY) without numeric values;
the values below are the on-disk format's and no claim depends on them. -/
def BRANCH : Nat := 1

/-- Modelled from the spec (§3): the LEAF page-header flag bit. -/
def LEAF : Nat := 2

/-- Modelled from the spec (§3): the OVERFLOW page-header flag bit. -/
def OVERFLOW : Nat := 4

/-- Modelled from the spec (§3): the META page-header flag bit. -/
def META : Nat := 8

/-- Modelled from the spec (§3): the INTEGERKEY database flag bit. -/
def INTEGERKEY : Nat := 8

/-- Modelled from the spec (§3): `lowlevel::MAGIC`, a u32 format constant
defined in `model/lowlevel.rs`, which is not under `src/`.  No claim
depends on the numeric value. -/
def MAGIC : Nat := 0xBEEFC0DE

/-- Modelled from the spec (§3): `lowlevel::VERSION`, a u32 format
constant defined in `model/lowlevel.rs`, which is not under `src/`. -/
def VERSION : Nat := 1

/-- `model::Header` (§3): the per-page envelope. -/
structure Header where
  pageno : Nat
  pad : Nat
  flags : Nat
  free_lower : Nat
  free_upper : Nat
  deriving DecidableEq

/-- `model::metadata::Database` (§3): per-logical-database statistics and
tree root. -/
structure Database where
  pad : Nat
  flags : Nat
  depth : Nat
  branch_pages : Nat
  leaf_pages : Nat
  overflow_pages : Nat
  entries : Nat
  root : Nat
  deriving DecidableEq

/-- `model::Metadata` (§3): the meta page payload. -/
structure Metadata where
  magic : Nat
  version : Nat
  address : Nat
  mapsize : Nat
  main : Database
  free : Database
  last_pgno : Nat
  txnid : Nat
  deriving DecidableEq

/-- `model::Node` (§3): one key/value record of a leaf page. -/
structure Node where
  flags : Nat
  key : Bytes
  data : Bytes
  deriving DecidableEq

/-- `model::Leaf` (§3): a leaf page to encode. -/
structure Leaf where
  pageno : Nat
  flags : Nat
  nodes : List Node
  deriving DecidableEq

/-- The per-node byte cost subtracted by the pointer-table loop of
`write_leaf_unsafe` (line 82): `4 + 2 + 2 + node.data.len() + node.key.len()`. -/
def node_size (node : Node) : Nat :=
  4 + 2 + 2 + node.data.length + node.key.length

/-- The pointer-table loop of `write_leaf_unsafe` (lines 78–84): starting
from `offset = 4096`, for each node in order set
`offset = offset - node_size node` and push the new offset.  The
subtraction is on `usize`: going negative is an arithmetic overflow
(panic in a debug build), modelled as `Err.underflow`.  Returns the
pointer list together with the final offset. -/
def compute_ptrs : List Node → Nat → Except Err (List Nat × Nat)
  | [], offset => .ok ([], offset)
  | node :: rest, offset =>
    if node_size node ≤ offset then
      match compute_ptrs rest (offset - node_size node) with
      | .ok (ptrs, last) => .ok ((offset - node_size node) :: ptrs, last)
      | .error e => .error e
    else .error .underflow

/-- One node record as emitted by the final loop of `write_leaf_unsafe`
(lines 100–106): `data.len() as u32`, `flags` (u16), `key.len() as u16`,
the raw key bytes, the raw data bytes. -/
def node_record (node : Node) : Bytes :=
  leBytes 4 node.data.length ++ leBytes 2 node.flags
    ++ leBytes 2 node.key.length ++ node.key ++ node.data

/-- Outcome of a raw page write: success with the page bytes, or a
failure carrying the bytes already emitted when it occurred (the stream
keeps whatever was written before the failure). -/
inductive WOut where
  | ok (buf : Bytes)
  | err (e : Err) (wrote : Bytes)
  deriving DecidableEq

/-- `true` when the write failed. -/
def WOut.isErr : WOut → Bool
  | .ok _ => false
  | .err _ _ => true

/-- The bytes the writer emitted (all of them on success, the ones before
the failure otherwise). -/
def WOut.written : WOut → Bytes
  | .ok b => b
  | .err _ b => b

/-- `write_leaf_unsafe` (lines 70–109), for word width `w`.  It seeks to
`leaf.pageno * 4096`; all positions below are relative to that `head`.
It computes the pointer table, then writes `pageno` (word), `0` (u16),
`flags` (u16), `free_lower = (nkeys << 1) + (pos - head + 4)` (u16),
`free_upper = offset` (u16), the pointer table (u16 each), then
`fill = offset - (tail - head)` zero bytes (a `usize` subtraction that
fails on underflow, after the header and table were already emitted),
then each node record in node order. -/
def write_leaf (w : Nat) (leaf : Leaf) : WOut :=
  let nkeys := leaf.nodes.length
  match compute_ptrs leaf.nodes 4096 with
  | .error e => .err e []
  | .ok (ptrs, offset) =>
    match writeWord w leaf.pageno with
    | .error e => .err e []
    | .ok pg =>
      let b1 := pg ++ leBytes 2 0 ++ leBytes 2 leaf.flags
      let pos := b1.length
      let b2 := b1 ++ leBytes 2 ((nkeys <<< 1) + (pos + 4)) ++ leBytes 2 offset
        ++ (ptrs.map (leBytes 2)).flatten
      let tail := b2.length
      if tail ≤ offset then
        .ok (b2 ++ List.replicate (offset - tail) 0
          ++ (leaf.nodes.map node_record).flatten)
      else .err .underflow b2

/-- `write_page_header_unsafe` (lines 49–56): `pageno` (word), `pad`
(u16), `flags` (u16), `free_lower` (u16), `free_upper` (u16). -/
def write_page_header (w : Nat) (header : Header) : Except Err Bytes := do
  let pg ← writeWord w header.pageno
  return pg ++ leBytes 2 header.pad ++ leBytes 2 header.flags
    ++ leBytes 2 header.free_lower ++ leBytes 2 header.free_upper

/-- `write_db_unsafe` (lines 58–68): `pad` (u32), `flags` (u16), `depth`
(u16), then `branch_pages`, `leaf_pages`, `overflow_pages`, `entries`,
`root` each as a word. -/
def write_db (w : Nat) (db : Database) : Except Err Bytes := do
  let bp ← writeWord w db.branch_pages
  let lp ← writeWord w db.leaf_pages
  let op ← writeWord w db.overflow_pages
  let en ← writeWord w db.entries
  let rt ← writeWord w db.root
  return leBytes 4 db.pad ++ leBytes 2 db.flags ++ leBytes 2 db.depth
    ++ bp ++ lp ++ op ++ en ++ rt

/-- `write_meta_unsafe` (lines 111–138), for word width `w`: seeks to
`head = pageno * 4096`, writes a page header with flags META and all
other fields zero, then `magic` (u32), `version` (u32), `address`
(word), `mapsize` (word), the free `Database`, the main `Database`,
`last_pgno` (word), `txnid` (word), then `fill = 4096 - (tail - head)`
zero bytes.  Returns the seek target together with the page bytes. -/
def write_meta (w : Nat) (meta : Metadata) (pageno : Nat) :
    Except Err (Nat × Bytes) := do
  let head := pageno * 4096
  let hdr ← write_page_header w
    { pageno := 0, pad := 0, flags := META, free_lower := 0, free_upper := 0 }
  let addr ← writeWord w meta.address
  let msz ← writeWord w meta.mapsize
  let fdb ← write_db w meta.free
  let mdb ← write_db w meta.main
  let lpg ← writeWord w meta.last_pgno
  let txn ← writeWord w meta.txnid
  let body := hdr ++ leBytes 4 meta.magic ++ leBytes 4 meta.version
    ++ addr ++ msz ++ fdb ++ mdb ++ lpg ++ txn
  if body.length ≤ 4096 then
    return (head, body ++ List.replicate (4096 - body.length) 0)
  else throw .underflow

/-- The Metadata value `init_meta_unsafe` builds (lines 17–47): expected
magic and version, zero address, mapsize 1048576, both trees with all
statistics zero, no flags on main, INTEGERKEY on free, zero last_pgno
and txnid. -/
def init_meta_value : Metadata :=
  { magic := MAGIC
    version := VERSION
    address := 0
    mapsize := 1048576
    main :=
      { pad := 4096, flags := 0, depth := 0, branch_pages := 0
        leaf_pages := 0, overflow_pages := 0, entries := 0, root := 0 }
    free :=
      { pad := 4096, flags := INTEGERKEY, depth := 0, branch_pages := 0
        leaf_pages := 0, overflow_pages := 0, entries := 0, root := 0 }
    last_pgno := 0
    txnid := 0 }

/-- `init_meta_unsafe` (lines 17–47): returns two clones of the same
fresh Metadata value. -/
def init_meta : Except Err (Metadata × Metadata) :=
  .ok (init_meta_value, init_meta_value)

/-- Modelled from the spec (§4.5): `Factory::create` is not under `src/`;
it initializes the fresh Metadata pair via `init_meta_unsafe` and writes
the two copies at pages 0 and 1 (as the repository's own tests also do). -/
def create (w : Nat) : Except Err ((Nat × Bytes) × (Nat × Bytes)) := do
  let (m1, m2) ← init_meta
  let p0 ← write_meta w m1 0
  let p1 ← write_meta w m2 1
  return (p0, p1)

/-- Little-endian u16 read at byte offset `o` of a page image. -/
def readU16 (b : Bytes) (o : Nat) : Nat :=
  b.getD o 0 + 256 * b.getD (o + 1) 0

/-- Little-endian u32 read at byte offset `o` of a page image. -/
def readU32 (b : Bytes) (o : Nat) : Nat :=
  readU16 b o + 65536 * readU16 b (o + 2)

/-- The sub-list of `n` bytes starting at offset `o`. -/
def slice (b : Bytes) (o n : Nat) : Bytes :=
  (b.drop o).take n

/-- Modelled from the spec (§4.2): the leaf read path
(`read_leaf_unsafe`) is not under `src/` (only the tests call it).  One
node record at pointer offset `p`: `data_len` (u32), `flags` (u16),
`key_len` (u16), then the key bytes and the data bytes. -/
def read_node_at (b : Bytes) (p : Nat) : Node :=
  let dlen := readU32 b p
  let fl := readU16 b (p + 4)
  let klen := readU16 b (p + 6)
  { flags := fl, key := slice b (p + 8) klen, data := slice b (p + 8 + klen) dlen }

/-- Modelled from the spec (§4.2): decoding mirrors encoding — read the
header (failing if the page kind is not LEAF), derive `nkeys` from
`free_lower`, read the `nkeys` pointer offsets, then reconstruct each
Node at its pointer offset, in pointer-table order. -/
def read_leaf (w : Nat) (b : Bytes) : Except Err (List Node) :=
  if readU16 b (w + 2) = LEAF then
    let nkeys := (readU16 b (w + 4) - (w + 8)) / 2
    .ok ((List.range nkeys).map fun i => read_node_at b (readU16 b (w + 8 + 2 * i)))
  else .error .corrupted

/-- Encode a leaf with `write_leaf` and decode the same page image. -/
def roundtrip (w : Nat) (leaf : Leaf) : Except Err (List Node) :=
  match write_leaf w leaf with
  | .ok b => read_leaf w b
  | .err e _ => .error e

/-- A candidate meta page is valid when its magic and version match the
expected constants (§4.3). -/
def is_valid (m : Metadata) : Bool :=
  m.magic = MAGIC && m.version = VERSION

/-- Modelled from the spec (§4.3): `pick_meta_unsafe` is not under `src/`
(only the tests call it).  Given the two candidate read results: among
valid candidates the one with the strictly greater txnid wins; a txnid
tie between two valid candidates is a format error; exactly one valid
candidate wins regardless of txnid; neither valid is a corruption
error. -/
def pick_meta (c0 c1 : Except Err Metadata) : Except Err Metadata :=
  match c0, c1 with
  | .ok m0, .ok m1 =>
    match is_valid m0, is_valid m1 with
    | true, true =>
      if m0.txnid < m1.txnid then .ok m1
      else if m1.txnid < m0.txnid then .ok m0
      else .error .corrupted
    | true, false => .ok m0
    | false, true => .ok m1
    | false, false => .error .corrupted
  | .ok m0, .error _ => if is_valid m0 then .ok m0 else .error .corrupted
  | .error _, .ok m1 => if is_valid m1 then .ok m1 else .error .corrupted
  | .error _, .error _ => .error .corrupted

/-- The clap default of the `--trace` option (src/main.rs lines 15–16). -/
def trace_default : String := "error,lmbd::database=debug"

/-- The two-node leaf of the spec's end-to-end example (§8) and of the
repository's own `test_write_leaf_64`: key `[1]` → data `[2]` and key
`[2]` → data `[4]`, a single leaf at page 2. -/
def node1 : Node := { flags := 0, key := [1], data := [2] }

/-- Second node of the end-to-end example leaf. -/
def node2 : Node := { flags := 0, key := [2], data := [4] }

/-- The end-to-end example leaf at page 2. -/
def testLeaf : Leaf := { pageno := 2, flags := LEAF, nodes := [node1, node2] }

/-- An over-capacity leaf: 341 nodes of ten bytes each total 3410 bytes of
records, which fits below 4096, but the header plus the 341-entry pointer
table (698 bytes under the 64-bit word) no longer fits under the record
region, so the computed fill is negative. -/
def leaf341 : Leaf :=
  { pageno := 3, flags := LEAF
    nodes := List.replicate 341 { flags := 0, key := [1], data := [1] } }

/-- A node whose key is longer than 65535 bytes. -/
def bigNode : Node := { flags := 0, key := List.replicate 65536 1, data := [1] }

/-- A leaf holding only `bigNode`. -/
def bigLeaf : Leaf := { pageno := 2, flags := LEAF, nodes := [bigNode] }

/-- The page image `write_leaf` emits for the example leaf. -/
def testBuf : Bytes := (write_leaf 8 testLeaf).written

/-- The 20 header-and-pointer-table bytes of the example leaf page under
the 64-bit word: pageno 2 (8 bytes), pad 0, flags LEAF, free_lower 20,
free_upper 4076, then the pointer table 4086, 4076 (little-endian u16
each: 4086 = 246 + 15*256, 4076 = 236 + 15*256). -/
def headB : Bytes :=
  [2, 0, 0, 0, 0, 0, 0, 0, 0, 0, 2, 0, 20, 0, 236, 15, 246, 15, 236, 15]

/-- The 20 record bytes of the example leaf page: node1's record (data
length 1, flags 0, key length 1, key byte 1, data byte 2) followed by
node2's record (data length 1, flags 0, key length 1, key byte 2, data
byte 4). -/
def tailC : Bytes :=
  [1, 0, 0, 0, 0, 0, 1, 0, 1, 2, 1, 0, 0, 0, 0, 0, 1, 0, 2, 4]

/-- The full 4096-byte example leaf page: header and pointer table, 4056
zero-fill bytes, then the two node records. -/
def testPage : Bytes := headB ++ (List.replicate 4056 0 ++ tailC)

/-- The total record cost of a node list, as subtracted by the
pointer-table loop. -/
def sum_sizes (nodes : List Node) : Nat := (nodes.map node_size).sum

/-- All word-width fields of a Database sub-record fit the declared word
width. -/
def db_in_range (w : Nat) (db : Database) : Prop :=
  db.branch_pages < 2 ^ (8 * w) ∧ db.leaf_pages < 2 ^ (8 * w) ∧
    db.overflow_pages < 2 ^ (8 * w) ∧ db.entries < 2 ^ (8 * w) ∧
    db.root < 2 ^ (8 * w)

/-- All word-width fields of a Metadata record fit the declared word
width (otherwise `write_word` fails with a word-range error, §4.1). -/
def words_in_range (w : Nat) (meta : Metadata) : Prop :=
  meta.address < 2 ^ (8 * w) ∧ meta.mapsize < 2 ^ (8 * w) ∧
    meta.last_pgno < 2 ^ (8 * w) ∧ meta.txnid < 2 ^ (8 * w) ∧
    db_in_range w meta.free ∧ db_in_range w meta.main

/-- The Database sub-record layout as the spec words it (§4.2/§6):
`pad` (u32), `flags` (u16), `depth` (u16), then `branch_pages`,
`leaf_pages`, `overflow_pages`, `entries`, `root` each as a word. -/
def db_bytes (w : Nat) (db : Database) : Bytes :=
  leBytes 4 db.pad ++ leBytes 2 db.flags ++ leBytes 2 db.depth
    ++ leBytes w db.branch_pages ++ leBytes w db.leaf_pages
    ++ leBytes w db.overflow_pages ++ leBytes w db.entries
    ++ leBytes w db.root

/-- The meta page layout as the claim words it: a page header whose
flags are META and whose pageno, pad, free_lower and free_upper are all
zero; then magic (u32), version (u32), address (word), mapsize (word);
then the free Database sub-record followed by the main Database
sub-record; then last_pgno (word) and txnid (word); then zero bytes up
to the end of the 4096-byte page. -/
def meta_page_bytes (w : Nat) (meta : Metadata) : Bytes :=
  let body := leBytes w 0 ++ leBytes 2 0 ++ leBytes 2 META
    ++ leBytes 2 0 ++ leBytes 2 0
    ++ leBytes 4 meta.magic ++ leBytes 4 meta.version
    ++ leBytes w meta.address ++ leBytes w meta.mapsize
    ++ db_bytes w meta.free ++ db_bytes w meta.main
    ++ leBytes w meta.last_pgno ++ leBytes w meta.txnid
  body ++ List.replicate (4096 - body.length) 0

/-- A valid candidate Metadata with txnid 0 (for concrete meta
selection instances). -/
def valid_meta0 : Metadata := init_meta_value

/-- A valid candidate Metadata with txnid 7. -/
def valid_meta1 : Metadata := { init_meta_value with txnid := 7 }

/-- A candidate Metadata with a corrupted magic. -/
def bad_meta : Metadata := { init_meta_value with magic := 0 }

deriving instance DecidableEq for Except

lemma leBytes_length (n v : Nat) : (leBytes n v).length = n := by
  induction n generalizing v with
  | zero => rfl
  | succ n ih => simp [leBytes, ih]

lemma leBytes_mod (n v : Nat) : leBytes n (v % 2 ^ (8 * n)) = leBytes n v := by
  induction n generalizing v with
  | zero => rfl
  | succ n ih =>
    have hk : (2:Nat) ^ (8 * (n + 1)) = 256 * 2 ^ (8 * n) := by
      rw [Nat.mul_succ, pow_add]; ring
    simp only [leBytes, hk]
    rw [Nat.mod_mod_of_dvd v (Dvd.intro _ rfl), Nat.mod_mul_right_div_self,
      ih (v / 256)]

lemma sum_sizes_nil : sum_sizes [] = 0 := rfl

lemma sum_sizes_cons (n : Node) (l : List Node) :
    sum_sizes (n :: l) = node_size n + sum_sizes l := by
  simp [sum_sizes]

lemma node_size_ge (n : Node) : 8 ≤ node_size n := by
  simp [node_size]; omega

/-- Full characterization of a successful pointer-table computation:
as many pointers as nodes, the total size fits, the final offset is
4096 minus the total, and the i-th pointer is the start offset minus
the summed sizes of the first `i + 1` nodes. -/
lemma compute_ptrs_ok :
    ∀ (nodes : List Node) (off ptrs : _) (last : Nat),
      compute_ptrs nodes off = .ok (ptrs, last) →
      ptrs.length = nodes.length ∧ sum_sizes nodes ≤ off ∧
        last = off - sum_sizes nodes ∧
        ∀ i, i < ptrs.length →
          ptrs.getD i 0 = off - sum_sizes (nodes.take (i + 1)) := by
  intro nodes
  induction nodes with
  | nil =>
    intro off ptrs last h
    simp [compute_ptrs] at h
    obtain ⟨rfl, rfl⟩ := h
    simp [sum_sizes_nil]
  | cons node rest ih =>
    intro off ptrs last h
    rw [compute_ptrs] at h
    split at h
    case isTrue hg =>
      cases hrec : compute_ptrs rest (off - node_size node) with
      | error e => rw [hrec] at h; exact absurd h (by simp)
      | ok pr =>
        obtain ⟨ps, l⟩ := pr
        rw [hrec] at h
        simp only [Except.ok.injEq, Prod.mk.injEq] at h
        obtain ⟨rfl, rfl⟩ := h
        obtain ⟨hlen, hle, hlast, hget⟩ := ih (off - node_size node) ps _ hrec
        refine ⟨by simp [hlen], ?_, ?_, ?_⟩
        · rw [sum_sizes_cons]; omega
        · rw [sum_sizes_cons]; omega
        · intro i hi
          cases i with
          | zero =>
            simp [sum_sizes_cons, sum_sizes_nil]
          | succ i =>
            rw [List.getD_cons_succ, hget i (by simpa using hi),
              List.take_succ_cons, sum_sizes_cons]
            omega
    case isFalse hg => exact absurd h (by simp)

/-- Every computed pointer is strictly below the start offset, and the
pointer list is strictly decreasing. -/
lemma compute_ptrs_decreasing :
    ∀ (nodes : List Node) (off ptrs : _) (last : Nat),
      compute_ptrs nodes off = .ok (ptrs, last) →
      (∀ x ∈ ptrs, x < off) ∧ ptrs.Pairwise (fun a b => a > b) := by
  intro nodes
  induction nodes with
  | nil =>
    intro off ptrs last h
    simp [compute_ptrs] at h
    obtain ⟨rfl, rfl⟩ := h
    simp
  | cons node rest ih =>
    intro off ptrs last h
    rw [compute_ptrs] at h
    split at h
    case isTrue hg =>
      cases hrec : compute_ptrs rest (off - node_size node) with
      | error e => rw [hrec] at h; exact absurd h (by simp)
      | ok pr =>
        obtain ⟨ps, l⟩ := pr
        rw [hrec] at h
        simp only [Except.ok.injEq, Prod.mk.injEq] at h
        obtain ⟨rfl, rfl⟩ := h
        obtain ⟨hlt, hpw⟩ := ih (off - node_size node) ps _ hrec
        have h8 := node_size_ge node
        constructor
        · intro x hx
          rcases List.mem_cons.mp hx with rfl | hx
          · omega
          · have := hlt x hx; omega
        · exact List.Pairwise.cons (fun x hx => by have := hlt x hx; omega) hpw
    case isFalse hg => exact absurd h (by simp)

lemma flatten_le2_length (ptrs : List Nat) :
    ((ptrs.map (leBytes 2)).flatten).length = 2 * ptrs.length := by
  induction ptrs with
  | nil => rfl
  | cons p ps ih => simp [ih, leBytes_length]; omega

lemma writeWord_ok (w v : Nat) (h : v < 2 ^ (8 * w)) :
    writeWord w v = .ok (leBytes w v) := by
  simp [writeWord, h]

/-- Reading a u16 right after a known-length byte chunk recovers the
value written there, truncated to 16 bits. -/
lemma readU16_at (a : Bytes) (v : Nat) (b : Bytes) (o : Nat) (ho : o = a.length) :
    readU16 (a ++ (leBytes 2 v ++ b)) o = v % 65536 := by
  subst ho
  have h0 : (a ++ (leBytes 2 v ++ b)).getD a.length 0 = v % 256 := by
    rw [List.getD_append_right a _ 0 a.length le_rfl]
    simp [leBytes]
  have h1 : (a ++ (leBytes 2 v ++ b)).getD (a.length + 1) 0 = v / 256 % 256 := by
    rw [List.getD_append_right a _ 0 (a.length + 1) (by omega)]
    simp [leBytes]
  rw [readU16, h0, h1]
  omega

/-- Shape of a successful `write_leaf`: the pointer computation
succeeded, the header plus table fit under the record region, and the
two `free` header fields read back as the emitted values. -/
lemma write_leaf_fields (w : Nat) (leaf : Leaf) (buf : Bytes)
    (h : write_leaf w leaf = .ok buf) :
    ∃ ptrs offset, compute_ptrs leaf.nodes 4096 = .ok (ptrs, offset) ∧
      w + 8 + 2 * leaf.nodes.length ≤ offset ∧
      readU16 buf (w + 4) = ((leaf.nodes.length <<< 1) + (w + 8)) % 65536 ∧
      readU16 buf (w + 6) = offset % 65536 := by
  rw [write_leaf] at h
  cases hcp : compute_ptrs leaf.nodes 4096 with
  | error e => rw [hcp] at h; exact absurd h (by simp)
  | ok pr =>
    obtain ⟨ptrs, offset⟩ := pr
    rw [hcp] at h
    by_cases hpg : leaf.pageno < 2 ^ (8 * w)
    · rw [writeWord_ok w leaf.pageno hpg] at h
      simp only [] at h
      obtain ⟨hlen, -, -, -⟩ := compute_ptrs_ok leaf.nodes 4096 ptrs offset hcp
      have hb1 : (leBytes w leaf.pageno ++ leBytes 2 0 ++ leBytes 2 leaf.flags).length
          = w + 4 := by simp [leBytes_length]
      have hb2 : ((leBytes w leaf.pageno ++ leBytes 2 0 ++ leBytes 2 leaf.flags)
            ++ leBytes 2 ((leaf.nodes.length <<< 1) + ((leBytes w leaf.pageno
              ++ leBytes 2 0 ++ leBytes 2 leaf.flags).length + 4))
            ++ leBytes 2 offset ++ (ptrs.map (leBytes 2)).flatten).length
          = w + 8 + 2 * leaf.nodes.length := by
        simp only [List.length_append, leBytes_length, flatten_le2_length, hlen]
        try omega
      rw [hb2] at h
      split at h
      next htail =>
        simp only [WOut.ok.injEq] at h
        subst h
        refine ⟨ptrs, offset, rfl, htail, ?_, ?_⟩
        · rw [show ((leBytes w leaf.pageno ++ leBytes 2 0 ++ leBytes 2 leaf.flags)
              ++ leBytes 2 ((leaf.nodes.length <<< 1) + ((leBytes w leaf.pageno
                ++ leBytes 2 0 ++ leBytes 2 leaf.flags).length + 4))
              ++ leBytes 2 offset ++ (ptrs.map (leBytes 2)).flatten)
              ++ List.replicate (offset - (w + 8 + 2 * leaf.nodes.length)) 0
              ++ (leaf.nodes.map node_record).flatten
            = (leBytes w leaf.pageno ++ leBytes 2 0 ++ leBytes 2 leaf.flags)
              ++ (leBytes 2 ((leaf.nodes.length <<< 1) + ((leBytes w leaf.pageno
                ++ leBytes 2 0 ++ leBytes 2 leaf.flags).length + 4))
              ++ (leBytes 2 offset ++ ((ptrs.map (leBytes 2)).flatten
              ++ (List.replicate (offset - (w + 8 + 2 * leaf.nodes.length)) 0
              ++ (leaf.nodes.map node_record).flatten)))) from by
            simp [List.append_assoc]]
          rw [readU16_at _ _ _ _ (by rw [hb1]), hb1]
        · rw [show ((leBytes w leaf.pageno ++ leBytes 2 0 ++ leBytes 2 leaf.flags)
              ++ leBytes 2 ((leaf.nodes.length <<< 1) + ((leBytes w leaf.pageno
                ++ leBytes 2 0 ++ leBytes 2 leaf.flags).length + 4))
              ++ leBytes 2 offset ++ (ptrs.map (leBytes 2)).flatten)
              ++ List.replicate (offset - (w + 8 + 2 * leaf.nodes.length)) 0
              ++ (leaf.nodes.map node_record).flatten
            = ((leBytes w leaf.pageno ++ leBytes 2 0 ++ leBytes 2 leaf.flags)
              ++ leBytes 2 ((leaf.nodes.length <<< 1) + ((leBytes w leaf.pageno
                ++ leBytes 2 0 ++ leBytes 2 leaf.flags).length + 4)))
              ++ (leBytes 2 offset ++ ((ptrs.map (leBytes 2)).flatten
              ++ (List.replicate (offset - (w + 8 + 2 * leaf.nodes.length)) 0
              ++ (leaf.nodes.map node_record).flatten))) from by
            simp [List.append_assoc]]
          rw [readU16_at _ _ _ _ (by simp [leBytes_length])]
      next htail => exact absurd h (by simp)
    · rw [writeWord, if_neg hpg] at h
      exact absurd h (by simp)

/-- If some node's record cost exceeds the running offset, the pointer
loop underflows. -/
lemma compute_ptrs_underflow :
    ∀ (nodes : List Node) (off : Nat) (n : Node), n ∈ nodes →
      off < node_size n → compute_ptrs nodes off = .error .underflow := by
  intro nodes
  induction nodes with
  | nil => intro off n hmem; exact absurd hmem (by simp)
  | cons head rest ih =>
    intro off n hmem hbig
    rcases List.mem_cons.mp hmem with rfl | hmem
    · rw [compute_ptrs, if_neg (by omega)]
    · by_cases hg : node_size head ≤ off
      · rw [compute_ptrs, if_pos hg,
          ih (off - node_size head) n hmem (by omega)]
      · rw [compute_ptrs, if_neg hg]

/-- A leaf holding a node whose record alone exceeds the page budget
makes `write_leaf` fail before writing anything. -/
lemma write_leaf_err_of_big (w : Nat) (leaf : Leaf) (n : Node)
    (hmem : n ∈ leaf.nodes) (hbig : 4096 < node_size n) :
    write_leaf w leaf = .err .underflow [] := by
  rw [write_leaf, compute_ptrs_underflow leaf.nodes 4096 n hmem hbig]

lemma write_page_header_ok (w : Nat) (hd : Header) (h : hd.pageno < 2 ^ (8 * w)) :
    write_page_header w hd = .ok (leBytes w hd.pageno ++ leBytes 2 hd.pad
      ++ leBytes 2 hd.flags ++ leBytes 2 hd.free_lower ++ leBytes 2 hd.free_upper) := by
  simp [write_page_header, writeWord_ok w hd.pageno h, Bind.bind, Except.bind,
    pure, Except.pure]

lemma write_db_ok (w : Nat) (db : Database) (h : db_in_range w db) :
    write_db w db = .ok (db_bytes w db) := by
  obtain ⟨h1, h2, h3, h4, h5⟩ := h
  simp [write_db, db_bytes, writeWord_ok _ _ h1, writeWord_ok _ _ h2,
    writeWord_ok _ _ h3, writeWord_ok _ _ h4, writeWord_ok _ _ h5,
    Bind.bind, Except.bind, pure, Except.pure]

lemma db_bytes_length (w : Nat) (db : Database) :
    (db_bytes w db).length = 8 + 5 * w := by
  simp [db_bytes, leBytes_length]; omega

lemma readU16_append_right (a b : Bytes) (k : Nat) :
    readU16 (a ++ b) (a.length + k) = readU16 b k := by
  unfold readU16
  rw [List.getD_append_right a b 0 (a.length + k) (by omega),
    List.getD_append_right a b 0 (a.length + k + 1) (by omega)]
  have e1 : a.length + k - a.length = k := by omega
  have e2 : a.length + k + 1 - a.length = k + 1 := by omega
  rw [e1, e2]

lemma readU32_append_right (a b : Bytes) (k : Nat) :
    readU32 (a ++ b) (a.length + k) = readU32 b k := by
  unfold readU32
  rw [readU16_append_right,
    show a.length + k + 2 = a.length + (k + 2) from by omega,
    readU16_append_right]

lemma slice_append_right (a b : Bytes) (k n : Nat) :
    slice (a ++ b) (a.length + k) n = slice b k n := by
  unfold slice
  rw [List.drop_append k]

lemma read_node_at_append (a b : Bytes) (k : Nat) :
    read_node_at (a ++ b) (a.length + k) = read_node_at b k := by
  simp only [read_node_at]
  rw [readU32_append_right,
    show a.length + k + 4 = a.length + (k + 4) from by omega,
    readU16_append_right,
    show a.length + k + 6 = a.length + (k + 6) from by omega,
    readU16_append_right,
    show a.length + k + 8 = a.length + (k + 8) from by omega,
    slice_append_right,
    show a.length + (k + 8) + readU16 b (k + 6)
      = a.length + (k + 8 + readU16 b (k + 6)) from by omega,
    slice_append_right]

/-- The page image of the example leaf, spelled out byte by byte. -/
lemma write_leaf_testLeaf : write_leaf 8 testLeaf = .ok testPage := rfl

lemma testBuf_eq : testBuf = testPage := by
  show (write_leaf 8 testLeaf).written = testPage
  rw [write_leaf_testLeaf]
  rfl

lemma slice_testPage_hi (k n : Nat) :
    slice testPage (4076 + k) n = slice tailC k n := by
  rw [show testPage = headB ++ (List.replicate 4056 0 ++ tailC) from rfl,
    show (4076 : Nat) + k = headB.length + (4056 + k) from by
      rw [show headB.length = 20 from rfl]; omega,
    slice_append_right,
    show (4056 : Nat) + k = (List.replicate 4056 (0 : Nat)).length + k from by
      rw [List.length_replicate],
    slice_append_right]

lemma read_node_at_testPage_hi (k : Nat) :
    read_node_at testPage (4076 + k) = read_node_at tailC k := by
  rw [show testPage = headB ++ (List.replicate 4056 0 ++ tailC) from rfl,
    show (4076 : Nat) + k = headB.length + (4056 + k) from by
      rw [show headB.length = 20 from rfl]; omega,
    read_node_at_append,
    show (4056 : Nat) + k = (List.replicate 4056 (0 : Nat)).length + k from by
      rw [List.length_replicate],
    read_node_at_append]

/-- Modelled decode of the example page: the nodes come back in
pointer-table order, which is the reverse of the order they were
written. -/
lemma read_leaf_testPage : read_leaf 8 testPage = .ok [node2, node1] := by
  rw [read_leaf, if_pos (show readU16 testPage (8 + 2) = LEAF from rfl)]
  show Except.ok ((List.range ((readU16 testPage (8 + 4) - (8 + 8)) / 2)).map
    fun i => read_node_at testPage (readU16 testPage (8 + 8 + 2 * i)))
    = .ok [node2, node1]
  rw [show (readU16 testPage (8 + 4) - (8 + 8)) / 2 = 2 from rfl,
    show List.range 2 = [0, 1] from rfl]
  simp only [List.map_cons, List.map_nil]
  rw [show readU16 testPage (8 + 8 + 2 * 0) = 4076 + 10 from rfl,
    show readU16 testPage (8 + 8 + 2 * 1) = 4076 + 0 from rfl,
    read_node_at_testPage_hi 10, read_node_at_testPage_hi 0]
  rfl

lemma compute_ptrs_replicate :
    ∀ (k off : Nat) (n : Node), k * node_size n ≤ off →
      ∃ ptrs, compute_ptrs (List.replicate k n) off
          = .ok (ptrs, off - k * node_size n) ∧ ptrs.length = k := by
  intro k
  induction k with
  | zero =>
    intro off n h
    exact ⟨[], by simp [compute_ptrs], rfl⟩
  | succ k ih =>
    intro off n h
    have hmul : (k + 1) * node_size n = k * node_size n + node_size n := by ring
    have hns : node_size n ≤ off := by omega
    obtain ⟨ptrs, hcp, hplen⟩ := ih (off - node_size n) n (by omega)
    refine ⟨(off - node_size n) :: ptrs, ?_, by simp [hplen]⟩
    rw [List.replicate_succ, compute_ptrs, if_pos hns, hcp,
      show off - node_size n - k * node_size n
        = off - (k + 1) * node_size n from by omega]

/-- When the pointer loop succeeds but the header plus pointer table no
longer fit under the record region, write_leaf fails only after having
emitted the header and the full pointer table. -/
lemma write_leaf_overflow (w : Nat) (leaf : Leaf) (ptrs : List Nat) (offset : Nat)
    (hcp : compute_ptrs leaf.nodes 4096 = .ok (ptrs, offset))
    (hpg : leaf.pageno < 2 ^ (8 * w))
    (hov : offset < w + 8 + 2 * leaf.nodes.length) :
    (write_leaf w leaf).isErr = true ∧
      ((write_leaf w leaf).written).length = w + 8 + 2 * leaf.nodes.length := by
  obtain ⟨hlen, -, -, -⟩ := compute_ptrs_ok leaf.nodes 4096 ptrs offset hcp
  rw [write_leaf, hcp, writeWord_ok w leaf.pageno hpg]
  simp only []
  have hb2 : ((leBytes w leaf.pageno ++ leBytes 2 0 ++ leBytes 2 leaf.flags)
      ++ leBytes 2 ((leaf.nodes.length <<< 1)
        + ((leBytes w leaf.pageno ++ leBytes 2 0 ++ leBytes 2 leaf.flags).length + 4))
      ++ leBytes 2 offset ++ (ptrs.map (leBytes 2)).flatten).length
      = w + 8 + 2 * leaf.nodes.length := by
    simp only [List.length_append, leBytes_length, flatten_le2_length, hlen]
    try omega
  rw [hb2, if_neg (by omega)]
  exact ⟨rfl, hb2⟩

lemma bigNode_key_length : bigNode.key.length = 65536 := by
  rw [show bigNode.key = List.replicate 65536 1 from rfl, List.length_replicate]

lemma bigNode_mem : bigNode ∈ bigLeaf.nodes := List.Mem.head _

lemma bigNode_size : 4096 < node_size bigNode := by
  rw [node_size, bigNode_key_length]
  omega

/-- C4: for every Metadata value and page index (with word-width fields
representable under the declared word size, 32- or 64-bit), write_meta
seeks to page_index * 4096 and emits, in order: a page header whose
flags are META and whose pageno, pad, free_lower and free_upper are all
zero; then magic (u32), version (u32), address (word), mapsize (word);
then the free Database sub-record followed by the main Database
sub-record; then last_pgno (word) and txnid (word); then zero bytes up
to the end of the 4096-byte page. -/
theorem write_meta_layout (w : Nat) (meta : Metadata) (pageno : Nat)
    (hw : w = 4 ∨ w = 8) (hr : words_in_range w meta) :
    write_meta w meta pageno = .ok (pageno * 4096, meta_page_bytes w meta) ∧
      (meta_page_bytes w meta).length = 4096 := by
  obtain ⟨h1, h2, h3, h4, hf, hm⟩ := hr
  have hz : (0 : Nat) < 2 ^ (8 * w) :=
    Nat.two_pow_pos _
  constructor
  · rcases hw with rfl | rfl <;>
    · simp only [write_meta,
        write_page_header_ok _ ⟨0, 0, META, 0, 0⟩ hz, writeWord_ok _ _ h1,
        writeWord_ok _ _ h2, writeWord_ok _ _ h3, writeWord_ok _ _ h4,
        write_db_ok _ _ hf, write_db_ok _ _ hm, Bind.bind, Except.bind]
      rw [if_pos (by simp only [List.length_append, leBytes_length,
        db_bytes_length]; omega)]
      simp only [pure, Except.pure, meta_page_bytes]
  · rcases hw with rfl | rfl <;>
    · simp only [meta_page_bytes, List.length_append, List.length_replicate,
        leBytes_length, db_bytes_length]

/-- C4 witness: the layout theorem instantiated at the fresh metadata
value, 64-bit word size, page 1. -/
theorem write_meta_layout_witness :
    write_meta 8 init_meta_value 1 = .ok (1 * 4096, meta_page_bytes 8 init_meta_value) ∧
      (meta_page_bytes 8 init_meta_value).length = 4096 :=
  write_meta_layout 8 init_meta_value 1 (Or.inr rfl)
    (by unfold words_in_range db_in_range; decide)

/-- C1 (code bug): encoding the spec's own two-node example leaf with
write_leaf and decoding the same page image does not return the input
list: it returns the nodes in reverse order, because the records are
emitted front-to-back from the lowest offset while the pointer table
points the other way. -/
theorem roundtrip_reverses :
    roundtrip 8 testLeaf = .ok [node2, node1] ∧
    roundtrip 8 testLeaf ≠ .ok testLeaf.nodes ∧
    testLeaf.nodes = [node1, node2] := by
  have hmain : roundtrip 8 testLeaf = .ok [node2, node1] := by
    rw [roundtrip, write_leaf_testLeaf]
    exact read_leaf_testPage
  refine ⟨hmain, ?_, rfl⟩
  rw [hmain]
  decide

/-- C2 (code bug): in the page image write_leaf emits for the example
leaf, pointer-table entry 0 (read at byte 16 = w + 8) holds offset 4086,
but the record of node 0 (node1) begins at offset 4076 — the bytes at
offset 4086 are node2's record, not node1's.  Node records are laid
down front-to-back from the lowest offset, so node i does not begin at
pointer-table entry i. -/
theorem node_records_swapped :
    (write_leaf 8 testLeaf).isErr = false ∧
    readU16 testBuf 16 = 4086 ∧ readU16 testBuf 18 = 4076 ∧
    slice testBuf 4076 10 = node_record node1 ∧
    slice testBuf 4086 10 = node_record node2 ∧
    slice testBuf 4086 10 ≠ node_record node1 := by
  refine ⟨rfl, ?_, ?_, ?_, ?_, ?_⟩
  · rw [testBuf_eq]; rfl
  · rw [testBuf_eq]; rfl
  · rw [testBuf_eq, show (4076 : Nat) = 4076 + 0 from rfl, slice_testPage_hi]
    decide
  · rw [testBuf_eq, show (4086 : Nat) = 4076 + 10 from rfl, slice_testPage_hi]
    decide
  · rw [testBuf_eq, show (4086 : Nat) = 4076 + 10 from rfl, slice_testPage_hi]
    decide

/-- C3 (code bug): for the 341-node leaf the pointer loop succeeds
(final offset 686 ≥ 0) but the header plus pointer table need 698
bytes, so the fill subtraction goes negative; write_leaf fails only
after having emitted the 698 header-and-table bytes — a partial write,
not the clean no-write error the claim describes. -/
theorem capacity_overflow_mid_write :
    (∃ ptrs, compute_ptrs leaf341.nodes 4096 = .ok (ptrs, 686)) ∧
    686 < 8 + 8 + 2 * leaf341.nodes.length ∧
    (write_leaf 8 leaf341).isErr = true ∧
    ((write_leaf 8 leaf341).written).length = 698 ∧
    (write_leaf 8 leaf341).written ≠ [] := by
  have hlen : leaf341.nodes.length = 341 := by
    rw [show leaf341.nodes
      = List.replicate 341 { flags := 0, key := [1], data := [1] } from rfl,
      List.length_replicate]
  obtain ⟨ptrs, hcp, hplen⟩ := compute_ptrs_replicate 341 4096
    { flags := 0, key := [1], data := [1] }
    (by rw [show node_size { flags := 0, key := [1], data := [1] } = 10 from rfl]
        omega)
  have hcp' : compute_ptrs leaf341.nodes 4096 = .ok (ptrs, 686) := by
    rw [show leaf341.nodes
      = List.replicate 341 { flags := 0, key := [1], data := [1] } from rfl, hcp,
      show (4096 : Nat) - 341 * node_size { flags := 0, key := [1], data := [1] }
        = 686 from rfl]
  obtain ⟨herr, hwlen⟩ := write_leaf_overflow 8 leaf341 ptrs 686 hcp'
    (by decide) (by rw [hlen]; omega)
  refine ⟨⟨ptrs, hcp'⟩, by rw [hlen]; omega, herr, ?_, ?_⟩
  · rw [hwlen, hlen]
  · intro hnil
    have hl := congrArg List.length hnil
    rw [hwlen, hlen] at hl
    simp at hl

/-- C5: pick_meta applied to the two candidate meta pages: when both
are valid it returns the strictly greater txnid; when exactly one is
valid it returns that one regardless of txnid; when neither is valid it
fails with a corruption error.  `b0`, `b1` range over arbitrary invalid
candidates (read failures or bad magic/version). -/
theorem pick_meta_selects (m0 m1 : Metadata) (b0 b1 : Except Err Metadata)
    (h0 : is_valid m0 = true) (h1 : is_valid m1 = true)
    (ht : m0.txnid < m1.txnid)
    (hb0 : ∀ m, b0 = .ok m → is_valid m = false)
    (hb1 : ∀ m, b1 = .ok m → is_valid m = false) :
    pick_meta (.ok m0) (.ok m1) = .ok m1 ∧
    pick_meta (.ok m1) (.ok m0) = .ok m1 ∧
    pick_meta (.ok m0) b1 = .ok m0 ∧
    pick_meta b0 (.ok m1) = .ok m1 ∧
    pick_meta b0 b1 = .error .corrupted := by
  refine ⟨?_, ?_, ?_, ?_, ?_⟩
  · simp [pick_meta, h0, h1, ht]
  · simp [pick_meta, h0, h1, Nat.lt_asymm ht, ht]
  · cases b1 with
    | ok m => simp [pick_meta, h0, hb1 m rfl]
    | error e => simp [pick_meta, h0]
  · cases b0 with
    | ok m => simp [pick_meta, h1, hb0 m rfl]
    | error e => simp [pick_meta, h1]
  · cases b0 with
    | ok m =>
      cases b1 with
      | ok m' => simp [pick_meta, hb0 m rfl, hb1 m' rfl]
      | error e => simp [pick_meta, hb0 m rfl]
    | error e =>
      cases b1 with
      | ok m' => simp [pick_meta, hb1 m' rfl]
      | error e' => simp [pick_meta]

/-- C5 witness: concrete valid candidates with txnid 0 and 7, a read
failure and a bad-magic candidate. -/
theorem pick_meta_selects_witness :
    pick_meta (.ok valid_meta0) (.ok valid_meta1) = .ok valid_meta1 ∧
    pick_meta (.ok valid_meta1) (.ok valid_meta0) = .ok valid_meta1 ∧
    pick_meta (.ok valid_meta0) (.ok bad_meta) = .ok valid_meta0 ∧
    pick_meta (.error .corrupted) (.ok valid_meta1) = .ok valid_meta1 ∧
    pick_meta (.error .corrupted) (.ok bad_meta) = .error .corrupted :=
  pick_meta_selects valid_meta0 valid_meta1 (.error .corrupted) (.ok bad_meta)
    (by decide) (by decide) (by decide)
    (by intro m h; simp at h)
    (by intro m h; injection h with h; subst h; decide)

/-- C6: a successful pointer-table computation starting from 4096 gives,
for each node index i, the offset 4096 minus the summed record costs
(4 + 2 + 2 + data length + key length) of nodes 0..i, and the pointer
offsets are strictly decreasing as the index increases. -/
theorem ptr_table_offsets (nodes : List Node) (ptrs : List Nat) (last : Nat)
    (h : compute_ptrs nodes 4096 = .ok (ptrs, last)) :
    (∀ i, i < ptrs.length →
      ptrs.getD i 0 = 4096 - sum_sizes (nodes.take (i + 1))) ∧
    ptrs.Pairwise (fun a b => a > b) :=
  ⟨(compute_ptrs_ok nodes 4096 ptrs last h).2.2.2,
   (compute_ptrs_decreasing nodes 4096 ptrs last h).2⟩

/-- C6 witness: the example leaf's two pointers, 4086 and 4076. -/
theorem ptr_table_offsets_witness :
    (∀ i, i < ([4086, 4076] : List Nat).length →
      ([4086, 4076] : List Nat).getD i 0
        = 4096 - sum_sizes (testLeaf.nodes.take (i + 1))) ∧
    ([4086, 4076] : List Nat).Pairwise (fun a b => a > b) :=
  ptr_table_offsets testLeaf.nodes [4086, 4076] 4076 (by decide)

/-- C7: for every leaf write_leaf encodes successfully (under the 32- or
64-bit word), the emitted header's free_lower field equals the end of
the pointer table (header size w + 8 plus 2 bytes per node) and its
free_upper field equals the smallest record offset, 4096 minus the
total record cost. -/
theorem leaf_free_bounds (w : Nat) (leaf : Leaf) (buf : Bytes)
    (_hw : w = 4 ∨ w = 8) (h : write_leaf w leaf = .ok buf) :
    readU16 buf (w + 4) = (w + 8) + 2 * leaf.nodes.length ∧
    readU16 buf (w + 6) = 4096 - sum_sizes leaf.nodes := by
  obtain ⟨ptrs, offset, hcp, hle, hfl, hfu⟩ := write_leaf_fields w leaf buf h
  obtain ⟨hlen, hsum, hlast, -⟩ := compute_ptrs_ok leaf.nodes 4096 ptrs offset hcp
  constructor
  · rw [hfl, Nat.shiftLeft_eq, pow_one]
    omega
  · rw [hfu]
    omega

/-- C7 witness: the example leaf under the 64-bit word. -/
theorem leaf_free_bounds_witness :
    readU16 testBuf (8 + 4) = (8 + 8) + 2 * testLeaf.nodes.length ∧
    readU16 testBuf (8 + 6) = 4096 - sum_sizes testLeaf.nodes :=
  leaf_free_bounds 8 testLeaf testBuf (Or.inr rfl)
    (by rw [testBuf_eq]; exact write_leaf_testLeaf)

/-- C8: the metadata pair produced at file creation is two equal records
with the expected magic and version, all tree statistics zero in both
sub-records, the fixed default mapsize, INTEGERKEY on the free tree, no
flags on the main tree, txnid 0; and the two copies are written at
pages 0 and 1 (byte offsets 0 and 4096), under either word size. -/
theorem create_fresh_pair :
    init_meta = .ok (init_meta_value, init_meta_value) ∧
    init_meta_value.magic = MAGIC ∧ init_meta_value.version = VERSION ∧
    init_meta_value.main.depth = 0 ∧ init_meta_value.main.branch_pages = 0 ∧
    init_meta_value.main.leaf_pages = 0 ∧ init_meta_value.main.overflow_pages = 0 ∧
    init_meta_value.main.entries = 0 ∧ init_meta_value.main.root = 0 ∧
    init_meta_value.free.depth = 0 ∧ init_meta_value.free.branch_pages = 0 ∧
    init_meta_value.free.leaf_pages = 0 ∧ init_meta_value.free.overflow_pages = 0 ∧
    init_meta_value.free.entries = 0 ∧ init_meta_value.free.root = 0 ∧
    init_meta_value.mapsize = 1048576 ∧
    init_meta_value.free.flags = INTEGERKEY ∧ init_meta_value.main.flags = 0 ∧
    init_meta_value.txnid = 0 ∧
    (create 8).map (fun p => (p.1.1, p.2.1)) = .ok (0, 4096) ∧
    (create 4).map (fun p => (p.1.1, p.2.1)) = .ok (0, 4096) := by
  refine ⟨rfl, rfl, rfl, rfl, rfl, rfl, rfl, rfl, rfl, rfl, rfl, rfl, rfl,
    rfl, rfl, rfl, rfl, rfl, rfl, by decide, by decide⟩

/-- C9 (counterexample): the claim says write_leaf returns success for a
node whose key exceeds 65535 bytes; at this concrete input (a 65536-byte
key) it instead fails, because such a record cannot fit the 4096-byte
page and the offset subtraction underflows before anything is written. -/
theorem big_key_not_success :
    write_leaf 8 bigLeaf = .err .underflow [] ∧
    65535 < bigNode.key.length :=
  ⟨write_leaf_err_of_big 8 bigLeaf bigNode bigNode_mem bigNode_size,
   by rw [bigNode_key_length]; decide⟩

/-- C9 (amended): write_leaf performs no range check on key length — its
node record stores `key.len() mod 2^16` as the u16 prefix while
embedding all key bytes, so the prefix disagrees with the bytes — but a
node whose key exceeds 65535 bytes always overflows the 4096-byte page
budget, so write_leaf fails with an underflow before writing anything,
rather than returning success. -/
theorem key_length_truncated (w : Nat) (leaf : Leaf) (n : Node)
    (hk : 65535 < n.key.length) (hmem : n ∈ leaf.nodes) :
    node_record n = leBytes 4 n.data.length ++ leBytes 2 n.flags
      ++ leBytes 2 (n.key.length % 2 ^ 16) ++ n.key ++ n.data ∧
    n.key.length % 2 ^ 16 ≠ n.key.length ∧
    write_leaf w leaf = .err .underflow [] := by
  refine ⟨?_, ?_, ?_⟩
  · rw [node_record]
    simp only [show (2 : Nat) ^ 16 = 2 ^ (8 * 2) by norm_num, leBytes_mod]
  · have : n.key.length % 2 ^ 16 < 2 ^ 16 := Nat.mod_lt _ (by norm_num)
    omega
  · exact write_leaf_err_of_big w leaf n hmem (by simp [node_size]; omega)

/-- C9 witness: the amended statement at the concrete 65536-byte-key
node. -/
theorem key_length_truncated_witness :
    node_record bigNode = leBytes 4 bigNode.data.length ++ leBytes 2 bigNode.flags
      ++ leBytes 2 (bigNode.key.length % 2 ^ 16) ++ bigNode.key ++ bigNode.data ∧
    bigNode.key.length % 2 ^ 16 ≠ bigNode.key.length ∧
    write_leaf 8 bigLeaf = .err .underflow [] :=
  key_length_truncated 8 bigLeaf bigNode
    (by rw [bigNode_key_length]; decide) bigNode_mem

/-- C10 (counterexample): the default value of the `--trace` option is
not the string the spec claims. -/
theorem trace_default_differs : trace_default ≠ "error,database=debug" := by
  decide

/-- C10 (amended): the `--trace FILTER` command-line option has the
default value `error,lmbd::database=debug`. -/
theorem trace_default_value : trace_default = "error,lmbd::database=debug" := rfl

end Lmdb
